import Mathlib

/-!
Shallow embedding of the HTTP/1.x message parser of the `epic` repository
(src/http/parser/mod.rs and src/http/mod.rs).

Modelling conventions:
* A byte is a `Nat` (< 256 on real streams); the TCP stream is a `List Nat`
  of the bytes that will arrive, consumed from the front.
* `stream.read_byte().unwrap()` on an exhausted stream, and every
  `panic!("Parse error!")` / `.unwrap()` on an `Err`, are modelled by the
  single outcome `Res.fatal` (an unrecoverable task abort).  A typed error
  that the source returns as `Result::Err` is modelled by `Except.error`.
* Rust `String`s are represented by the `List Nat` of their UTF-8 bytes.
  `String::from_utf8(v)` is therefore "check `validUtf8 v` and keep the
  bytes"; `str::trim` is modelled on the ASCII whitespace bytes
  {9,10,11,12,13,32} (the non-ASCII Unicode whitespace code points that
  Rust would additionally trim cannot change any fact proved below, since
  the proofs never depend on trimming non-ASCII bytes).
* `str::parse::<isize>` / `::<usize>` of the 2014-era standard library
  accept an optional leading '-' (signed only) followed by one or more
  ASCII digits, and fail on overflow; both are modelled exactly so.
-/

namespace Epic

/-- `List Char` to UTF-8/ASCII byte list, for writing concrete streams. -/
def ascii (l : List Char) : List Nat :=
  List.map Char.toNat l

-- Token byte constants (src/http/parser/mod.rs lines 10-15).
def CR : Nat := 13
def LF : Nat := 10
def SP : Nat := 32
def COLON : Nat := 58
def COMMA : Nat := 44
def DQUOTE : Nat := 34

/-- Every reader is constructed with `max_token_len: 4096us`. -/
def max_token_len : Nat := 4096

/-- Outcome of running a piece of the parser: either a value, or an
unrecoverable task abort (`panic!` or `.unwrap()` of a failure). -/
inductive Res (α : Type) where
  | fatal : Res α
  | ok : α → Res α
deriving DecidableEq, Repr

/-- The error enum of src/http/mod.rs lines 13-21 (`HTTPError`). -/
inductive Error where
  | MethodParseError
  | ResourceParseError
  | VersionParseError
  | MalformedHeaderLineError
  | BodyParsingError
  | StatusCodeParseError
  | StatusReasonParseError
deriving DecidableEq, Repr

/-- `RequestType` of src/http/mod.rs lines 48-58. -/
inductive RequestType where
  | GET | HEAD | POST | PUT | DELETE | TRACE | OPTIONS | CONNECT | PATCH
deriving DecidableEq, Repr

/-- `Version` of src/http/mod.rs lines 80-85. -/
inductive Version where
  | Http09 | Http10 | Http11 | Http20
deriving DecidableEq, Repr

/-- A Rust `Vec<String>`, named so that the constructor `HeaderVal.List`
below can mention it without shadowing `List`. -/
abbrev StrList := List (List Nat)

/-- `HeaderVal` of src/http/mod.rs lines 61-65: `List`, `Val`, `None`. -/
inductive HeaderVal where
  | List : StrList → HeaderVal
  | Val : List Nat → HeaderVal
  | None : HeaderVal
deriving DecidableEq, Repr

/-- The `HashMap<String, HeaderVal>` is modelled as an association list
with unique keys; `hinsert` mirrors `HashMap::insert` (overwrite). -/
abbrev Headers := List (List Nat × HeaderVal)

def hinsert (m : Headers) (k : List Nat) (v : HeaderVal) : Headers :=
  match m with
  | [] => [(k, v)]
  | (k', v') :: rest => if k' = k then (k, v) :: rest else (k', v') :: hinsert rest k v

def hget (m : Headers) (k : List Nat) : Option HeaderVal :=
  match m with
  | [] => none
  | (k', v') :: rest => if k' = k then some v' else hget rest k

/-- `Request` of src/http/mod.rs lines 88-94. -/
structure Request where
  method : RequestType
  version : Version
  resource : List Nat
  headers : Headers
  body : Option (List Nat)
deriving DecidableEq, Repr

/-- `Response` of src/http/mod.rs lines 97-103 (`status_code: isize`). -/
structure Response where
  version : Version
  status_code : Int
  reason : List Nat
  headers : Headers
  body : Option (List Nat)
deriving DecidableEq, Repr

/-- Continuation byte test for UTF-8 validation (0x80..=0xBF). -/
def isCont (b : Nat) : Bool := 128 ≤ b && b ≤ 191

/-- `str::from_utf8` validity (RFC 3629, as enforced by Rust): ASCII,
2-byte C2..DF, 3-byte with the E0/ED overlong/surrogate exclusions,
4-byte with the F0/F4 range exclusions. -/
def validUtf8 : List Nat → Bool
  | [] => true
  | b :: rest =>
    if b ≤ 127 then validUtf8 rest
    else if 194 ≤ b && b ≤ 223 then
      match rest with
      | b2 :: r => isCont b2 && validUtf8 r
      | [] => false
    else if b = 224 then
      match rest with
      | b2 :: b3 :: r => (160 ≤ b2 && b2 ≤ 191) && isCont b3 && validUtf8 r
      | _ => false
    else if (225 ≤ b && b ≤ 236) || b = 238 || b = 239 then
      match rest with
      | b2 :: b3 :: r => isCont b2 && isCont b3 && validUtf8 r
      | _ => false
    else if b = 237 then
      match rest with
      | b2 :: b3 :: r => (128 ≤ b2 && b2 ≤ 159) && isCont b3 && validUtf8 r
      | _ => false
    else if b = 240 then
      match rest with
      | b2 :: b3 :: b4 :: r => (144 ≤ b2 && b2 ≤ 191) && isCont b3 && isCont b4 && validUtf8 r
      | _ => false
    else if 241 ≤ b && b ≤ 243 then
      match rest with
      | b2 :: b3 :: b4 :: r => isCont b2 && isCont b3 && isCont b4 && validUtf8 r
      | _ => false
    else if b = 244 then
      match rest with
      | b2 :: b3 :: b4 :: r => (128 ≤ b2 && b2 ≤ 143) && isCont b3 && isCont b4 && validUtf8 r
      | _ => false
    else false

/-- ASCII whitespace bytes trimmed by `str::trim`. -/
def isWs (b : Nat) : Bool := b = 32 || (9 ≤ b && b ≤ 13)

/-- `str::trim` on the ASCII fragment: strip leading and trailing
whitespace bytes. -/
def rustTrim (s : List Nat) : List Nat :=
  ((s.dropWhile isWs).reverse.dropWhile isWs).reverse

/-- `String::from_utf8(buf).unwrap_or(String::new()).trim()`:
an invalid buffer becomes the empty string before trimming. -/
def bufToVal (buf : List Nat) : List Nat :=
  if validUtf8 buf then rustTrim buf else []

/-- `String::from_utf8(buf).unwrap_or(String::new())` without trimming. -/
def bufToStr (buf : List Nat) : List Nat :=
  if validUtf8 buf then buf else []

/-- Loop of `SPParser::read_req_component` (lines 33-47): read a byte,
break (returning the buffer) once the buffer has reached `max_token_len`,
break on a space, otherwise push the byte. -/
def spLoop : List Nat → List Nat → Res (List Nat × List Nat)
  | [], _ => .fatal
  | b :: rest, buf =>
    if max_token_len ≤ buf.length then .ok (buf, rest)
    else if b = SP then .ok (buf, rest)
    else spLoop rest (buf ++ [b])

/-- `SPParser::new()` + `read_req_component` on a fresh stream suffix. -/
def spRead (stream : List Nat) : Res (List Nat × List Nat) :=
  spLoop stream []

/-- The two reachable `EOLParserState`s (`LF` is declared in the source
but never stored). -/
inductive EOLSt where
  | token | cr
deriving DecidableEq, Repr

/-- Loop of `EOLParser::read_req_component` (lines 70-94).  A CR is a
parse abort unless the state is `Token`; an LF is an abort unless the
state is `CR`; any other byte is pushed without touching the state. -/
def eolLoop : List Nat → List Nat → EOLSt → Res (List Nat × List Nat)
  | [], _, _ => .fatal
  | b :: rest, buf, st =>
    if max_token_len ≤ buf.length then .ok (buf, rest)
    else if b = CR then
      (if st = EOLSt.token then eolLoop rest buf EOLSt.cr else .fatal)
    else if b = LF then
      (if st = EOLSt.cr then .ok (buf, rest) else .fatal)
    else eolLoop rest (buf ++ [b]) st

def eolRead (stream : List Nat) : Res (List Nat × List Nat) :=
  eolLoop stream [] EOLSt.token

/-- Loop of `HeaderKeyParser::read_req_component` (lines 109-129): break
on ':'; on CR read one more byte which must be LF (end of header block);
otherwise push. -/
def hkLoop : List Nat → List Nat → Res (List Nat × List Nat)
  | [], _ => .fatal
  | b :: rest, buf =>
    if max_token_len ≤ buf.length then .ok (buf, rest)
    else if b = COLON then .ok (buf, rest)
    else if b = CR then
      (match rest with
       | [] => .fatal
       | b2 :: rest2 => if b2 = LF then .ok (buf, rest2) else .fatal)
    else hkLoop rest (buf ++ [b])

def hkRead (stream : List Nat) : Res (List Nat × List Nat) :=
  hkLoop stream []

/-- The reachable `HeaderValParserState`s (again `LF` is never stored). -/
inductive HVSt where
  | token | tokenDelim | quoted | ows | cr
deriving DecidableEq, Repr

/-- The token-accumulation step shared by the comma arm and the
end-of-line flush (lines 188-192 and 213-217): `None → Val`,
`Val → List of two`, `List → append`. -/
def hvFlush (hv : HeaderVal) (s : List Nat) : HeaderVal :=
  match hv with
  | HeaderVal.None => HeaderVal.Val s
  | HeaderVal.Val v => HeaderVal.List [v, s]
  | HeaderVal.List l => HeaderVal.List (l ++ [s])

/-- Loop of `HeaderValParser::read_req_component` (lines 155-222).
Note three faithful quirks of the source: the length guard aborts
instead of breaking; the comma arm flushes the pending token without
consulting the state (so also inside a quoted span); the catch-all arm
sets the state to `Token` (so an ordinary byte leaves quoted mode). -/
def hvLoop : List Nat → List Nat → HeaderVal → HVSt → Res (HeaderVal × List Nat)
  | [], _, _, _ => .fatal
  | b :: rest, buf, hv, st =>
    if max_token_len ≤ buf.length then .fatal
    else if b = CR then
      (if st = HVSt.token then hvLoop rest buf hv HVSt.cr else .fatal)
    else if b = LF then
      (if st = HVSt.cr then
        .ok ((if 0 < buf.length then hvFlush hv (bufToVal buf) else hv), rest)
       else .fatal)
    else if b = SP then
      (match st with
       | HVSt.ows => hvLoop rest buf hv HVSt.ows
       | HVSt.token => hvLoop rest buf hv HVSt.tokenDelim
       | HVSt.tokenDelim => hvLoop rest buf hv HVSt.tokenDelim
       | HVSt.cr => .fatal
       | HVSt.quoted => hvLoop rest (buf ++ [b]) hv HVSt.quoted)
    else if b = COMMA then
      hvLoop rest [] (hvFlush hv (bufToVal buf)) HVSt.tokenDelim
    else if b = DQUOTE then
      (match st with
       | HVSt.quoted => hvLoop rest buf hv HVSt.token
       | HVSt.cr => .fatal
       | _ => hvLoop rest buf hv HVSt.quoted)
    else hvLoop rest (buf ++ [b]) hv HVSt.token

/-- `HeaderValParser::new()` + `read_req_component`: state starts at
`OptionalWhitespace`, the accumulated value at `None`. -/
def hvRead (stream : List Nat) : Res (HeaderVal × List Nat) :=
  hvLoop stream [] HeaderVal.None HVSt.ows

/-- Loop of `BodyParser::read_req_component` (lines 237-248): push the
byte first, then break once the buffer length has reached `body_len`
(hence at least one byte is always read, even for `body_len = 0`). -/
def bodyLoop : List Nat → List Nat → Nat → Res (List Nat × List Nat)
  | [], _, _ => .fatal
  | b :: rest, buf, len =>
    if len ≤ (buf ++ [b]).length then .ok (buf ++ [b], rest)
    else bodyLoop rest (buf ++ [b]) len

-- Method vocabulary bytes (the nine `b"..."` literals of lines 255-263).
def bGET : List Nat := ascii ['G','E','T']
def bHEAD : List Nat := ascii ['H','E','A','D']
def bPOST : List Nat := ascii ['P','O','S','T']
def bPUT : List Nat := ascii ['P','U','T']
def bDELETE : List Nat := ascii ['D','E','L','E','T','E']
def bTRACE : List Nat := ascii ['T','R','A','C','E']
def bOPTIONS : List Nat := ascii ['O','P','T','I','O','N','S']
def bCONNECT : List Nat := ascii ['C','O','N','N','E','C','T']
def bPATCH : List Nat := ascii ['P','A','T','C','H']

deriving instance DecidableEq for Except

/-- The match of `read_request_type` (lines 254-265) on the token bytes. -/
def methodOf (tok : List Nat) : Option RequestType :=
  if tok = bGET then some RequestType.GET
  else if tok = bHEAD then some RequestType.HEAD
  else if tok = bPOST then some RequestType.POST
  else if tok = bPUT then some RequestType.PUT
  else if tok = bDELETE then some RequestType.DELETE
  else if tok = bTRACE then some RequestType.TRACE
  else if tok = bOPTIONS then some RequestType.OPTIONS
  else if tok = bCONNECT then some RequestType.CONNECT
  else if tok = bPATCH then some RequestType.PATCH
  else none

/-- `read_request_type` (lines 251-266): space-delimited token matched
against the method vocabulary. -/
def read_request_type (stream : List Nat) : Res (Option RequestType × List Nat) :=
  match spRead stream with
  | .fatal => .fatal
  | .ok (tok, rest) => .ok (methodOf tok, rest)

-- Version vocabulary bytes (lines 287-290); note the mixed-case 2.0.
def bHTTP09 : List Nat := ascii ['H','T','T','P','/','0','.','9']
def bHTTP10 : List Nat := ascii ['H','T','T','P','/','1','.','0']
def bHTTP11 : List Nat := ascii ['H','T','T','P','/','1','.','1']
def bHttp20 : List Nat := ascii ['H','t','t','p','/','2','.','0']

/-- The match of `read_version` (lines 286-292) on the token bytes. -/
def versionOf (tok : List Nat) : Option Version :=
  if tok = bHTTP09 then some Version.Http09
  else if tok = bHTTP10 then some Version.Http10
  else if tok = bHTTP11 then some Version.Http11
  else if tok = bHttp20 then some Version.Http20
  else none

/-- `read_version` instantiated with `EOLParser` (request line, line 313). -/
def read_version_eol (stream : List Nat) : Res (Option Version × List Nat) :=
  match eolRead stream with
  | .fatal => .fatal
  | .ok (tok, rest) => .ok (versionOf tok, rest)

/-- `read_version` instantiated with `SPParser` (status line, line 331). -/
def read_version_sp (stream : List Nat) : Res (Option Version × List Nat) :=
  match spRead stream with
  | .fatal => .fatal
  | .ok (tok, rest) => .ok (versionOf tok, rest)

/-- `read_resource` (lines 276-282): space token that must be valid
UTF-8 (`String::from_utf8` must return `Ok`). -/
def read_resource (stream : List Nat) : Res (Option (List Nat) × List Nat) :=
  match spRead stream with
  | .fatal => .fatal
  | .ok (tok, rest) => .ok (if validUtf8 tok then some tok else none, rest)

/-- `read_reason` (lines 268-274): CRLF-delimited token that must be
valid UTF-8. -/
def read_reason (stream : List Nat) : Res (Option (List Nat) × List Nat) :=
  match eolRead stream with
  | .fatal => .fatal
  | .ok (tok, rest) => .ok (if validUtf8 tok then some tok else none, rest)

def isDigitB (b : Nat) : Bool := 48 ≤ b && b ≤ 57

/-- Value of a string of ASCII digit bytes. -/
def digitsVal (s : List Nat) : Nat :=
  s.foldl (fun acc d => acc * 10 + (d - 48)) 0

/-- `str::parse::<usize>` (2014 std): one or more ASCII digits, no sign,
failure on overflow past `usize::MAX` (64-bit). -/
def parseUsize (s : List Nat) : Option Nat :=
  if s ≠ [] && s.all isDigitB then
    (if digitsVal s < 2 ^ 64 then some (digitsVal s) else none)
  else none

/-- `str::parse::<isize>` (2014 std): optional leading '-', then one or
more ASCII digits; fails on overflow past the `isize` (64-bit) range. -/
def parseIsize (s : List Nat) : Option Int :=
  match s with
  | [] => none
  | b :: rest =>
    if b = 45 then
      (if rest ≠ [] && rest.all isDigitB then
        (if digitsVal rest ≤ 2 ^ 63 then some (-(digitsVal rest : Int)) else none)
       else none)
    else
      (if (b :: rest).all isDigitB then
        (if digitsVal (b :: rest) < 2 ^ 63 then some ((digitsVal (b :: rest) : Int)) else none)
       else none)

/-- Fueled little-endian digit list of a `Nat`; the fuel only serves to
make the definition kernel-computable, see `natDigitsRevF_irrel`. -/
def natDigitsRevF : Nat → Nat → List Nat
  | 0, _ => []
  | fuel + 1, n => if n < 10 then [n] else n % 10 :: natDigitsRevF fuel (n / 10)

def natDigitsRev (n : Nat) : List Nat := natDigitsRevF (n + 1) n

/-- `ToString` for a `Nat` (decimal digits, most significant first). -/
def natToStr (n : Nat) : List Nat :=
  (natDigitsRev n).reverse.map (fun d => d + 48)

/-- `isize::to_string`: a '-' prefix for negatives, decimal digits. -/
def intToStr (n : Int) : List Nat :=
  if n < 0 then 45 :: natToStr (-n).toNat else natToStr n.toNat

/-- The token-level part of `read_status_code` (lines 297-307): parse
the token as `isize`, then accept only when the rendered string of the
number has length 3. -/
def statusCodeOfTok (tok : List Nat) : Option Int :=
  match parseIsize tok with
  | some num => if (intToStr num).length = 3 then some num else none
  | none => none

/-- `read_status_code` (lines 295-308).  `String::from_utf8(..).unwrap_or`
followed by `parse::<isize>` accepts exactly the byte strings accepted by
`parseIsize` directly (a parseable token is pure ASCII, hence valid
UTF-8; an invalid-UTF-8 token decodes to the empty string which fails to
parse), so the tokens are parsed at the byte level here. -/
def read_status_code (stream : List Nat) : Res (Option Int × List Nat) :=
  match spRead stream with
  | .fatal => .fatal
  | .ok (tok, rest) => .ok (statusCodeOfTok tok, rest)

/-- `read_req_line` (lines 310-328): all three components are read off
the stream first; only then are the three failure checks performed in
order (method, resource, version). -/
def read_req_line (stream : List Nat) :
    Res (Except Error (RequestType × List Nat × Version) × List Nat) :=
  match read_request_type stream with
  | .fatal => .fatal
  | .ok (maybe_method, s1) =>
    match read_resource s1 with
    | .fatal => .fatal
    | .ok (maybe_resource, s2) =>
      match read_version_eol s2 with
      | .fatal => .fatal
      | .ok (maybe_version, s3) =>
        match maybe_method with
        | none => .ok (.error Error.MethodParseError, s3)
        | some m =>
          match maybe_resource with
          | none => .ok (.error Error.ResourceParseError, s3)
          | some r =>
            match maybe_version with
            | none => .ok (.error Error.VersionParseError, s3)
            | some v => .ok (.ok (m, r, v), s3)

/-- `read_status_line` (lines 330-348): same read-then-check shape. -/
def read_status_line (stream : List Nat) :
    Res (Except Error (Version × Int × List Nat) × List Nat) :=
  match read_version_sp stream with
  | .fatal => .fatal
  | .ok (maybe_version, s1) =>
    match read_status_code s1 with
    | .fatal => .fatal
    | .ok (maybe_code, s2) =>
      match read_reason s2 with
      | .fatal => .fatal
      | .ok (maybe_reason, s3) =>
        match maybe_version with
        | none => .ok (.error Error.VersionParseError, s3)
        | some v =>
          match maybe_code with
          | none => .ok (.error Error.StatusCodeParseError, s3)
          | some c =>
            match maybe_reason with
            | none => .ok (.error Error.StatusReasonParseError, s3)
            | some r => .ok (.ok (v, c, r), s3)

/-- Fueled loop of `read_headers` (lines 350-364): read a key; an empty
key (blank line, or an invalid-UTF-8 key decoded by `unwrap_or` to the
empty string) terminates the block; otherwise read a value and insert
it, overwriting any previous entry.  The fuel is an upper bound on the
number of iterations (each iteration consumes at least one stream byte,
see `hkLoop_consumes`/`hvLoop_consumes`), not part of the source. -/
def read_headers_fuel : Nat → List Nat → Headers → Res (Headers × List Nat)
  | 0, _, _ => .fatal
  | fuel + 1, stream, headers =>
    match hkLoop stream [] with
    | .fatal => .fatal
    | .ok (keyB, s1) =>
      if (bufToStr keyB).length = 0 then .ok (headers, s1)
      else
        match hvRead s1 with
        | .fatal => .fatal
        | .ok (v, s2) => read_headers_fuel fuel s2 (hinsert headers (bufToStr keyB) v)

def read_headers (stream : List Nat) : Res (Headers × List Nat) :=
  read_headers_fuel (stream.length + 1) stream []

/-- `read_body` (lines 366-369): read `len` bytes (at least one) and
decode with `unwrap_or(String::new())`. -/
def read_body (stream : List Nat) (len : Nat) : Res (List Nat × List Nat) :=
  match bodyLoop stream [] len with
  | .fatal => .fatal
  | .ok (b, rest) => .ok (bufToStr b, rest)

-- Header names consulted by the body resolution.
def bContentLength : List Nat :=
  ascii ['C','o','n','t','e','n','t','-','L','e','n','g','t','h']
def bTransferEncoding : List Nat :=
  ascii ['T','r','a','n','s','f','e','r','-','E','n','c','o','d','i','n','g']

/-- The body-resolution block that appears verbatim in both
`read_request` (lines 378-398) and `read_response` (lines 421-441):
a present `Content-Length` of shape `Val` that parses as `usize` reads
that many bytes; a present but unparseable or non-`Val` `Content-Length`
yields no body (`Transfer-Encoding` is not consulted); with no
`Content-Length`, a present `Transfer-Encoding` reads a fixed 4096-byte
window; otherwise there is no body. -/
def body_from_headers (headers : Headers) (stream : List Nat) :
    Res (Option (List Nat) × List Nat) :=
  match hget headers bContentLength with
  | none =>
    (match hget headers bTransferEncoding with
     | none => .ok (none, stream)
     | some _ =>
       match read_body stream 4096 with
       | .fatal => .fatal
       | .ok (s, rest) => .ok (some s, rest))
  | some len_field =>
    (match len_field with
     | HeaderVal.Val len_str =>
       (match parseUsize len_str with
        | none => .ok (none, stream)
        | some len =>
          match read_body stream len with
          | .fatal => .fatal
          | .ok (s, rest) => .ok (some s, rest))
     | _ => .ok (none, stream))

/-- `read_request` (lines 371-408).  Both `read_req_line(stream).unwrap()`
and `read_headers(stream).unwrap()` turn a typed `Err` into a task abort
(`Res.fatal`); a `HEAD` method short-circuits the body to `None`. -/
def read_request (stream : List Nat) : Res (Request × List Nat) :=
  match read_req_line stream with
  | .fatal => .fatal
  | .ok (.error _, _) => .fatal
  | .ok (.ok (method, resource, version), s1) =>
    match read_headers s1 with
    | .fatal => .fatal
    | .ok (headers, s2) =>
      if method = RequestType.HEAD then
        .ok ({ method := method, version := version, resource := resource,
               headers := headers, body := none }, s2)
      else
        match body_from_headers headers s2 with
        | .fatal => .fatal
        | .ok (body, s3) =>
          .ok ({ method := method, version := version, resource := resource,
                 headers := headers, body := body }, s3)

/-- `read_response` (lines 410-453): status 204 and 304 and the whole
1xx range short-circuit the body to `None` before the header logic. -/
def read_response (stream : List Nat) : Res (Response × List Nat) :=
  match read_status_line stream with
  | .fatal => .fatal
  | .ok (.error _, _) => .fatal
  | .ok (.ok (version, status_code, reason), s1) =>
    match read_headers s1 with
    | .fatal => .fatal
    | .ok (headers, s2) =>
      if status_code = 204 then
        .ok ({ version := version, status_code := status_code, reason := reason,
               headers := headers, body := none }, s2)
      else if status_code = 304 then
        .ok ({ version := version, status_code := status_code, reason := reason,
               headers := headers, body := none }, s2)
      else if 100 ≤ status_code ∧ status_code < 200 then
        .ok ({ version := version, status_code := status_code, reason := reason,
               headers := headers, body := none }, s2)
      else
        match body_from_headers headers s2 with
        | .fatal => .fatal
        | .ok (body, s3) =>
          .ok ({ version := version, status_code := status_code, reason := reason,
                 headers := headers, body := body }, s3)

-- Remaining definitions used by the statements below.

/-- The CRLF line terminator. -/
def crlf : List Nat := [CR, LF]

/-- The measure used to characterise the shape of a header value:
`Absent` (`HeaderVal.None`) ranks 0, `Single` (`Val`) 1, `Multi`
(`List`) 2. -/
def rank : HeaderVal → Nat
  | HeaderVal.None => 0
  | HeaderVal.Val _ => 1
  | HeaderVal.List _ => 2

/-- Stated from the words of the status-code claim, for comparison with
the source: a token that is "a non-negative integer with exactly 3
decimal digits". -/
def isNonNegThreeDigit (tok : List Nat) : Bool :=
  tok.length = 3 && tok.all isDigitB

-- Concrete streams and expected messages used by witnesses and
-- counterexamples.

/-- `HEAD /x HTTP/1.1` with a `Content-Length: 10` header. -/
def sHEAD : List Nat :=
  ascii ['H','E','A','D',' ','/','x',' ','H','T','T','P','/','1','.','1'] ++ crlf ++
    ascii ['C','o','n','t','e','n','t','-','L','e','n','g','t','h',':',' ','1','0'] ++
    crlf ++ crlf

def reqHEAD : Request :=
  { method := RequestType.HEAD, version := Version.Http11, resource := ascii ['/','x'],
    headers := [(bContentLength, HeaderVal.Val (ascii ['1','0']))], body := none }

/-- `HTTP/1.1 204 OK` with a `Content-Length: 10` header. -/
def s204 : List Nat :=
  ascii ['H','T','T','P','/','1','.','1',' ','2','0','4',' ','O','K'] ++ crlf ++
    ascii ['C','o','n','t','e','n','t','-','L','e','n','g','t','h',':',' ','1','0'] ++
    crlf ++ crlf

def resp204 : Response :=
  { version := Version.Http11, status_code := 204, reason := ascii ['O','K'],
    headers := [(bContentLength, HeaderVal.Val (ascii ['1','0']))], body := none }

/-- `GET /x HTTP/1.1` with `Content-Length: 0` and one stray byte `Z`
after the blank line. -/
def sCL0 : List Nat :=
  ascii ['G','E','T',' ','/','x',' ','H','T','T','P','/','1','.','1'] ++ crlf ++
    ascii ['C','o','n','t','e','n','t','-','L','e','n','g','t','h',':',' ','0'] ++
    crlf ++ crlf ++ ascii ['Z']

def reqCL0 : Request :=
  { method := RequestType.GET, version := Version.Http11, resource := ascii ['/','x'],
    headers := [(bContentLength, HeaderVal.Val (ascii ['0']))], body := some (ascii ['Z']) }

/-- `POST /x HTTP/1.1` with `Content-Length: 5` and body `Hello`. -/
def sPOST5 : List Nat :=
  ascii ['P','O','S','T',' ','/','x',' ','H','T','T','P','/','1','.','1'] ++ crlf ++
    ascii ['C','o','n','t','e','n','t','-','L','e','n','g','t','h',':',' ','5'] ++
    crlf ++ crlf ++ ascii ['H','e','l','l','o']

def reqPOST5 : Request :=
  { method := RequestType.POST, version := Version.Http11, resource := ascii ['/','x'],
    headers := [(bContentLength, HeaderVal.Val (ascii ['5']))],
    body := some (ascii ['H','e','l','l','o']) }

/-- A header block repeating the key `A`: `A: x`, `B: y`, `A: z`. -/
def sDup : List Nat :=
  ascii ['A',':',' ','x'] ++ crlf ++ ascii ['B',':',' ','y'] ++ crlf ++
    ascii ['A',':',' ','z'] ++ crlf ++ crlf

/-- The request line `FOO /x HTTP/1.1` with its unrecognized method. -/
def sFOO : List Nat :=
  ascii ['F','O','O',' ','/','x',' ','H','T','T','P','/','1','.','1'] ++ crlf

-- One-step unfolding equations for the reader loops (all definitional).

lemma spLoop_cons (b : Nat) (rest buf : List Nat) :
    spLoop (b :: rest) buf =
      if max_token_len ≤ buf.length then .ok (buf, rest)
      else if b = SP then .ok (buf, rest)
      else spLoop rest (buf ++ [b]) := rfl

lemma eolLoop_cons (b : Nat) (rest buf : List Nat) (st : EOLSt) :
    eolLoop (b :: rest) buf st =
      if max_token_len ≤ buf.length then .ok (buf, rest)
      else if b = CR then
        (if st = EOLSt.token then eolLoop rest buf EOLSt.cr else .fatal)
      else if b = LF then
        (if st = EOLSt.cr then .ok (buf, rest) else .fatal)
      else eolLoop rest (buf ++ [b]) st := rfl

lemma hkLoop_cons (b : Nat) (rest buf : List Nat) :
    hkLoop (b :: rest) buf =
      if max_token_len ≤ buf.length then .ok (buf, rest)
      else if b = COLON then .ok (buf, rest)
      else if b = CR then
        (match rest with
         | [] => .fatal
         | b2 :: rest2 => if b2 = LF then .ok (buf, rest2) else .fatal)
      else hkLoop rest (buf ++ [b]) := rfl

lemma hvLoop_cons (b : Nat) (rest buf : List Nat) (hv : HeaderVal) (st : HVSt) :
    hvLoop (b :: rest) buf hv st =
      if max_token_len ≤ buf.length then .fatal
      else if b = CR then
        (if st = HVSt.token then hvLoop rest buf hv HVSt.cr else .fatal)
      else if b = LF then
        (if st = HVSt.cr then
          .ok ((if 0 < buf.length then hvFlush hv (bufToVal buf) else hv), rest)
         else .fatal)
      else if b = SP then
        (match st with
         | HVSt.ows => hvLoop rest buf hv HVSt.ows
         | HVSt.token => hvLoop rest buf hv HVSt.tokenDelim
         | HVSt.tokenDelim => hvLoop rest buf hv HVSt.tokenDelim
         | HVSt.cr => .fatal
         | HVSt.quoted => hvLoop rest (buf ++ [b]) hv HVSt.quoted)
      else if b = COMMA then
        hvLoop rest [] (hvFlush hv (bufToVal buf)) HVSt.tokenDelim
      else if b = DQUOTE then
        (match st with
         | HVSt.quoted => hvLoop rest buf hv HVSt.token
         | HVSt.cr => .fatal
         | _ => hvLoop rest buf hv HVSt.quoted)
      else hvLoop rest (buf ++ [b]) hv HVSt.token := rfl

lemma bodyLoop_cons (b : Nat) (rest buf : List Nat) (len : Nat) :
    bodyLoop (b :: rest) buf len =
      if len ≤ (buf ++ [b]).length then .ok (buf ++ [b], rest)
      else bodyLoop rest (buf ++ [b]) len := rfl

/-- A successful header-key read consumes at least one stream byte. -/
lemma hkLoop_consumes (s : List Nat) : ∀ buf k rest, hkLoop s buf = .ok (k, rest) →
    rest.length < s.length := by
  induction s with
  | nil => intro buf k rest h; simp [hkLoop] at h
  | cons b t ih =>
    intro buf k rest h
    simp only [hkLoop] at h
    split at h
    · simp only [Res.ok.injEq, Prod.mk.injEq] at h
      simp [← h.2]
    · split at h
      · simp only [Res.ok.injEq, Prod.mk.injEq] at h
        simp [← h.2]
      · split at h
        · split at h
          · exact absurd h (by simp)
          · split at h
            · simp only [Res.ok.injEq, Prod.mk.injEq] at h
              obtain ⟨h1, h2⟩ := h
              subst h2
              simp only [List.length_cons]
              omega
            · exact absurd h (by simp)
        · have := ih _ _ _ h
          simp only [List.length_cons]
          omega

/-- A successful header-value read consumes at least one stream byte. -/
lemma hvLoop_consumes (s : List Nat) : ∀ buf hv st hv' rest,
    hvLoop s buf hv st = .ok (hv', rest) → rest.length < s.length := by
  induction s with
  | nil => intro buf hv st hv' rest h; simp [hvLoop] at h
  | cons b t ih =>
    intro buf hv st hv' rest h
    simp only [hvLoop] at h
    split at h
    · exact absurd h (by simp)
    · split at h
      · split at h
        · have := ih _ _ _ _ _ h
          simp only [List.length_cons]
          omega
        · exact absurd h (by simp)
      · split at h
        · split at h
          · simp only [Res.ok.injEq, Prod.mk.injEq] at h
            simp [← h.2]
          · exact absurd h (by simp)
        · split at h
          · split at h <;>
              first
              | (have hlt := ih _ _ _ _ _ h; simp only [List.length_cons]; omega)
              | exact absurd h (by simp)
          · split at h
            · have := ih _ _ _ _ _ h
              simp only [List.length_cons]
              omega
            · split at h
              · split at h <;>
                  first
                  | (have hlt := ih _ _ _ _ _ h; simp only [List.length_cons]; omega)
                  | exact absurd h (by simp)
              · have := ih _ _ _ _ _ h
                simp only [List.length_cons]
                omega

/-- The fuel of `read_headers_fuel` is irrelevant as soon as it exceeds
the stream length: the loop never exhausts it, so the fueled definition
agrees with the unbounded source loop. -/
lemma read_headers_fuel_irrel (fuel : Nat) : ∀ (fuel' : Nat) (s : List Nat) (hs : Headers),
    s.length < fuel → s.length < fuel' →
    read_headers_fuel fuel s hs = read_headers_fuel fuel' s hs := by
  induction fuel with
  | zero => intro fuel' s hs h1 h2; omega
  | succ fuel ih =>
    intro fuel' s hs h1 h2
    match fuel', h2 with
    | fuel' + 1, h2 =>
      simp only [read_headers_fuel]
      cases hk : hkLoop s [] with
      | fatal => rfl
      | ok p =>
        obtain ⟨keyB, s1⟩ := p
        have hs1 : s1.length < s.length := hkLoop_consumes s [] keyB s1 hk
        by_cases hkey : (bufToStr keyB).length = 0
        · simp [hkey]
        · simp only [hkey, if_neg, ite_false]
          cases hv : hvRead s1 with
          | fatal => rfl
          | ok q =>
            obtain ⟨v, s2⟩ := q
            have hs2 : s2.length < s1.length := hvLoop_consumes s1 [] _ _ v s2 hv
            exact ih fuel' s2 _ (by omega) (by omega)

/-- Over-long token, space reader: after 4096 pushed bytes the next byte
is consumed and the loop breaks, returning the truncated buffer. -/
lemma spLoop_trunc (rest : List Nat) : ∀ (m : Nat) (buf : List Nat),
    buf.length + m = max_token_len →
    spLoop (List.replicate (m + 1) 97 ++ rest) buf = .ok (buf ++ List.replicate m 97, rest) := by
  intro m
  induction m with
  | zero =>
    intro buf h
    rw [show List.replicate (0 + 1) 97 ++ rest = 97 :: rest from rfl, spLoop_cons]
    rw [if_pos (by omega)]
    simp
  | succ m ih =>
    intro buf h
    rw [show List.replicate (m + 1 + 1) 97 ++ rest
        = 97 :: (List.replicate (m + 1) 97 ++ rest) from rfl, spLoop_cons]
    rw [if_neg (by omega), if_neg (by simp [SP])]
    rw [ih (buf ++ [97]) (by simp only [List.length_append, List.length_cons, List.length_nil] at h ⊢; omega)]
    simp [List.replicate_succ, List.append_assoc]

/-- Over-long token, line reader: same silent truncation. -/
lemma eolLoop_trunc (rest : List Nat) : ∀ (m : Nat) (buf : List Nat) (st : EOLSt),
    buf.length + m = max_token_len →
    eolLoop (List.replicate (m + 1) 97 ++ rest) buf st = .ok (buf ++ List.replicate m 97, rest) := by
  intro m
  induction m with
  | zero =>
    intro buf st h
    rw [show List.replicate (0 + 1) 97 ++ rest = 97 :: rest from rfl, eolLoop_cons]
    rw [if_pos (by omega)]
    simp
  | succ m ih =>
    intro buf st h
    rw [show List.replicate (m + 1 + 1) 97 ++ rest
        = 97 :: (List.replicate (m + 1) 97 ++ rest) from rfl, eolLoop_cons]
    rw [if_neg (by omega), if_neg (by simp [CR]), if_neg (by simp [LF])]
    rw [ih (buf ++ [97]) st (by simp only [List.length_append, List.length_cons, List.length_nil] at h ⊢; omega)]
    simp [List.replicate_succ, List.append_assoc]

/-- Over-long token, header-key reader: same silent truncation. -/
lemma hkLoop_trunc (rest : List Nat) : ∀ (m : Nat) (buf : List Nat),
    buf.length + m = max_token_len →
    hkLoop (List.replicate (m + 1) 97 ++ rest) buf = .ok (buf ++ List.replicate m 97, rest) := by
  intro m
  induction m with
  | zero =>
    intro buf h
    rw [show List.replicate (0 + 1) 97 ++ rest = 97 :: rest from rfl, hkLoop_cons]
    rw [if_pos (by omega)]
    simp
  | succ m ih =>
    intro buf h
    rw [show List.replicate (m + 1 + 1) 97 ++ rest
        = 97 :: (List.replicate (m + 1) 97 ++ rest) from rfl, hkLoop_cons]
    rw [if_neg (by omega), if_neg (by simp [COLON]), if_neg (by simp [CR])]
    rw [ih (buf ++ [97]) (by simp only [List.length_append, List.length_cons, List.length_nil] at h ⊢; omega)]
    simp [List.replicate_succ, List.append_assoc]

/-- Over-long token, header-value reader: this one aborts instead. -/
lemma hvLoop_overflow (rest : List Nat) : ∀ (m : Nat) (buf : List Nat) (hv : HeaderVal),
    buf.length + m = max_token_len →
    hvLoop (List.replicate (m + 1) 97 ++ rest) buf hv HVSt.token = .fatal := by
  intro m
  induction m with
  | zero =>
    intro buf hv h
    rw [show List.replicate (0 + 1) 97 ++ rest = 97 :: rest from rfl, hvLoop_cons]
    rw [if_pos (by omega)]
  | succ m ih =>
    intro buf hv h
    rw [show List.replicate (m + 1 + 1) 97 ++ rest
        = 97 :: (List.replicate (m + 1) 97 ++ rest) from rfl, hvLoop_cons]
    rw [if_neg (by omega), if_neg (by simp [CR]), if_neg (by simp [LF]),
      if_neg (by simp [SP]), if_neg (by simp [COMMA]), if_neg (by simp [DQUOTE])]
    exact ih (buf ++ [97]) hv (by simp only [List.length_append, List.length_cons, List.length_nil] at h ⊢; omega)

/-- When the requested length can be met, the body loop returns exactly
the first `len - buf.length` remaining bytes. -/
lemma bodyLoop_take (n : Nat) (s : List Nat) : ∀ (buf : List Nat),
    buf.length < n → n ≤ buf.length + s.length →
    bodyLoop s buf n = .ok (buf ++ s.take (n - buf.length), s.drop (n - buf.length)) := by
  induction s with
  | nil =>
    intro buf h1 h2
    simp only [List.length_nil] at h2
    omega
  | cons b t ih =>
    intro buf h1 h2
    simp only [List.length_cons] at h2
    rw [bodyLoop_cons]
    by_cases hle : n ≤ (buf ++ [b]).length
    · rw [if_pos hle]
      simp only [List.length_append, List.length_cons, List.length_nil] at hle
      have hn : n - buf.length = 1 := by omega
      simp [hn]
    · rw [if_neg hle]
      simp only [List.length_append, List.length_cons, List.length_nil] at hle
      rw [ih (buf ++ [b]) (by simp only [List.length_append, List.length_cons, List.length_nil]; omega)
        (by simp only [List.length_append, List.length_cons, List.length_nil]; omega)]
      have hd : n - buf.length = (n - (buf.length + 1)) + 1 := by omega
      simp only [List.length_append, List.length_cons, List.length_nil]
      rw [hd]
      simp [List.take_succ_cons, List.drop_succ_cons, List.append_assoc]

/-- When the requested length is already met (in particular for
`body_len = 0`), the body loop still reads exactly one byte. -/
lemma bodyLoop_first (b : Nat) (t buf : List Nat) (n : Nat) (h : n ≤ buf.length + 1) :
    bodyLoop (b :: t) buf n = .ok (buf ++ [b], t) := by
  rw [bodyLoop_cons]
  rw [if_pos (by simp only [List.length_append, List.length_cons, List.length_nil]; omega)]

-- Decimal rendering: the fuel of `natDigitsRevF` is irrelevant once it
-- exceeds the number.

lemma natDigitsRevF_irrel (f1 : Nat) : ∀ (f2 n : Nat), n < f1 → n < f2 →
    natDigitsRevF f1 n = natDigitsRevF f2 n := by
  induction f1 with
  | zero => intro f2 n h1 h2; omega
  | succ f1 ih =>
    intro f2 n h1 h2
    match f2, h2 with
    | f2 + 1, h2 =>
      simp only [natDigitsRevF]
      by_cases h10 : n < 10
      · simp [h10]
      · rw [if_neg h10, if_neg h10]
        have hdiv : n / 10 < n := Nat.div_lt_self (by omega) (by omega)
        rw [ih f2 (n / 10) (by omega) (by omega)]

/-- Unfolding equation for `natDigitsRev` matching the recursion in
which it is used. -/
lemma natDigitsRev_unfold (n : Nat) :
    natDigitsRev n = if n < 10 then [n] else n % 10 :: natDigitsRev (n / 10) := by
  show natDigitsRevF (n + 1) n = _
  simp only [natDigitsRevF]
  by_cases h10 : n < 10
  · simp [h10]
  · rw [if_neg h10, if_neg h10]
    have hdiv : n / 10 < n := Nat.div_lt_self (by omega) (by omega)
    rw [natDigitsRevF_irrel n (n / 10 + 1) (n / 10) (by omega) (by omega)]
    rfl

lemma natDigitsRev_len_le : ∀ (k n : Nat), n < 10 ^ (k + 1) →
    (natDigitsRev n).length ≤ k + 1 := by
  intro k
  induction k with
  | zero =>
    intro n h
    rw [natDigitsRev_unfold, if_pos (by simpa using h)]
    simp
  | succ k ih =>
    intro n h
    rw [natDigitsRev_unfold]
    by_cases h10 : n < 10
    · rw [if_pos h10]; simp
    · rw [if_neg h10]
      simp only [List.length_cons]
      have hq : n / 10 < 10 ^ (k + 1) := by
        rw [Nat.div_lt_iff_lt_mul (by omega : (0:ℕ) < 10)]
        calc n < 10 ^ (k + 1 + 1) := h
        _ = 10 ^ (k + 1) * 10 := by ring
      have := ih (n / 10) hq
      omega

lemma natDigitsRev_len_ge : ∀ (k n : Nat), 10 ^ k ≤ n →
    k + 1 ≤ (natDigitsRev n).length := by
  intro k
  induction k with
  | zero =>
    intro n _
    rw [natDigitsRev_unfold]
    by_cases h10 : n < 10
    · simp [h10]
    · rw [if_neg h10]; simp
  | succ k ih =>
    intro n h
    have h10 : ¬n < 10 := by
      have : 10 ≤ 10 ^ (k + 1) := by
        calc 10 = 10 ^ 1 := by ring
        _ ≤ 10 ^ (k + 1) := Nat.pow_le_pow_right (by omega) (by omega)
      omega
    rw [natDigitsRev_unfold, if_neg h10]
    simp only [List.length_cons]
    have hq : 10 ^ k ≤ n / 10 := by
      rw [Nat.le_div_iff_mul_le (by omega)]
      calc 10 ^ k * 10 = 10 ^ (k + 1) := by ring
      _ ≤ n := h
    have := ih (n / 10) hq
    omega

lemma natDigitsRev_len_eq_two (m : Nat) :
    (natDigitsRev m).length = 2 ↔ 10 ≤ m ∧ m ≤ 99 := by
  constructor
  · intro h
    constructor
    · by_contra hlt
      have := natDigitsRev_len_le 0 m (by omega)
      omega
    · by_contra hgt
      have := natDigitsRev_len_ge 2 m (by omega)
      omega
  · intro ⟨h1, h2⟩
    have hle := natDigitsRev_len_le 1 m (by omega)
    have hge := natDigitsRev_len_ge 1 m (by omega)
    omega

lemma natDigitsRev_len_eq_three (m : Nat) :
    (natDigitsRev m).length = 3 ↔ 100 ≤ m ∧ m ≤ 999 := by
  constructor
  · intro h
    constructor
    · by_contra hlt
      have := natDigitsRev_len_le 1 m (by omega)
      omega
    · by_contra hgt
      have := natDigitsRev_len_ge 3 m (by omega)
      omega
  · intro ⟨h1, h2⟩
    have hle := natDigitsRev_len_le 2 m (by omega)
    have hge := natDigitsRev_len_ge 2 m (by omega)
    omega

lemma natToStr_length (m : Nat) : (natToStr m).length = (natDigitsRev m).length := by
  simp [natToStr]

/-- The rendered string of an `isize` has length 3 exactly for the
values 100..999 and -99..-10. -/
lemma intToStr_len_eq_three (n : Int) :
    (intToStr n).length = 3 ↔ ((100 ≤ n ∧ n ≤ 999) ∨ (-99 ≤ n ∧ n ≤ -10)) := by
  by_cases hneg : n < 0
  · rw [intToStr, if_pos hneg]
    simp only [List.length_cons, natToStr_length]
    rw [show (natDigitsRev (-n).toNat).length + 1 = 3
        ↔ (natDigitsRev (-n).toNat).length = 2 from by omega]
    rw [natDigitsRev_len_eq_two]
    omega
  · rw [intToStr, if_neg hneg]
    rw [natToStr_length, natDigitsRev_len_eq_three]
    omega

lemma rank_le_two (hv : HeaderVal) : rank hv ≤ 2 := by
  cases hv <;> simp [rank]

lemma rank_hvFlush (hv : HeaderVal) (s : List Nat) :
    rank (hvFlush hv s) = min 2 (rank hv + 1) := by
  cases hv <;> rfl

lemma count44_cons_ne (b : Nat) (pre : List Nat) (h : b ≠ 44) :
    ((b :: pre).count 44) = pre.count 44 := by
  have h1 : ¬(44 : Nat) = b := by omega
  simp [List.count_cons, h, h1]

lemma count44_cons_eq (pre : List Nat) :
    (((44 : Nat) :: pre).count 44) = pre.count 44 + 1 := by
  simp [List.count_cons]

/-- Loop invariant for the header-value reader: a successful read that
consumed the prefix `pre` performed one token flush per comma byte of
`pre` (the comma arm never looks at the state) plus at most one final
flush, so the rank of the result is pinched between `min 2 commas` and
`min 2 (commas + 1)` above the rank of the incoming accumulator. -/
lemma hvLoop_rank (s : List Nat) : ∀ (buf : List Nat) (hv : HeaderVal) (st : HVSt)
    (hv' : HeaderVal) (rest : List Nat),
    hvLoop s buf hv st = .ok (hv', rest) →
    ∃ pre, s = pre ++ rest ∧
      min 2 (rank hv + pre.count 44) ≤ rank hv' ∧
      rank hv' ≤ min 2 (rank hv + pre.count 44 + 1) := by
  induction s with
  | nil => intro buf hv st hv' rest h; simp [hvLoop] at h
  | cons b t ih =>
    intro buf hv st hv' rest h
    rw [hvLoop_cons] at h
    by_cases hlen : max_token_len ≤ buf.length
    · rw [if_pos hlen] at h
      exact absurd h (by simp)
    rw [if_neg hlen] at h
    by_cases hcr : b = CR
    · rw [if_pos hcr] at h
      by_cases hst : st = HVSt.token
      · rw [if_pos hst] at h
        obtain ⟨pre, hpre, hlb, hub⟩ := ih _ _ _ _ _ h
        refine ⟨b :: pre, by rw [hpre, List.cons_append], ?_, ?_⟩
        · rwa [count44_cons_ne b pre (by rw [hcr]; decide)]
        · rwa [count44_cons_ne b pre (by rw [hcr]; decide)]
      · rw [if_neg hst] at h
        exact absurd h (by simp)
    rw [if_neg hcr] at h
    by_cases hlf : b = LF
    · rw [if_pos hlf] at h
      by_cases hst : st = HVSt.cr
      · rw [if_pos hst] at h
        simp only [Res.ok.injEq, Prod.mk.injEq] at h
        obtain ⟨h1, h2⟩ := h
        subst h2
        have hc : ([b] : List Nat).count 44 = 0 := by
          rw [hlf]
          decide
        have hr2 := rank_le_two hv
        by_cases hbuf : 0 < buf.length
        · rw [if_pos hbuf] at h1
          refine ⟨[b], rfl, ?_, ?_⟩
          · rw [← h1, rank_hvFlush, hc]
            omega
          · rw [← h1, rank_hvFlush, hc]
        · rw [if_neg hbuf] at h1
          refine ⟨[b], rfl, ?_, ?_⟩
          · rw [← h1, hc]
            omega
          · rw [← h1, hc]
            omega
      · rw [if_neg hst] at h
        exact absurd h (by simp)
    rw [if_neg hlf] at h
    by_cases hsp : b = SP
    · rw [if_pos hsp] at h
      have hb : b ≠ 44 := by rw [hsp]; decide
      cases st with
      | ows =>
        obtain ⟨pre, hpre, hlb, hub⟩ := ih _ _ _ _ _ h
        refine ⟨b :: pre, by rw [hpre, List.cons_append], ?_, ?_⟩ <;>
          rwa [count44_cons_ne b pre hb]
      | token =>
        obtain ⟨pre, hpre, hlb, hub⟩ := ih _ _ _ _ _ h
        refine ⟨b :: pre, by rw [hpre, List.cons_append], ?_, ?_⟩ <;>
          rwa [count44_cons_ne b pre hb]
      | tokenDelim =>
        obtain ⟨pre, hpre, hlb, hub⟩ := ih _ _ _ _ _ h
        refine ⟨b :: pre, by rw [hpre, List.cons_append], ?_, ?_⟩ <;>
          rwa [count44_cons_ne b pre hb]
      | cr => exact absurd h (by simp)
      | quoted =>
        obtain ⟨pre, hpre, hlb, hub⟩ := ih _ _ _ _ _ h
        refine ⟨b :: pre, by rw [hpre, List.cons_append], ?_, ?_⟩ <;>
          rwa [count44_cons_ne b pre hb]
    rw [if_neg hsp] at h
    by_cases hcm : b = COMMA
    · rw [if_pos hcm] at h
      obtain ⟨pre, hpre, hlb, hub⟩ := ih _ _ _ _ _ h
      rw [rank_hvFlush] at hlb hub
      have hr2 := rank_le_two hv
      have hb : b = 44 := hcm
      subst hb
      refine ⟨44 :: pre, by rw [hpre, List.cons_append], ?_, ?_⟩
      · rw [count44_cons_eq]
        omega
      · rw [count44_cons_eq]
        omega
    rw [if_neg hcm] at h
    have hb : b ≠ 44 := by simpa [COMMA] using hcm
    by_cases hdq : b = DQUOTE
    · rw [if_pos hdq] at h
      cases st with
      | quoted =>
        obtain ⟨pre, hpre, hlb, hub⟩ := ih _ _ _ _ _ h
        refine ⟨b :: pre, by rw [hpre, List.cons_append], ?_, ?_⟩ <;>
          rwa [count44_cons_ne b pre hb]
      | cr => exact absurd h (by simp)
      | ows =>
        obtain ⟨pre, hpre, hlb, hub⟩ := ih _ _ _ _ _ h
        refine ⟨b :: pre, by rw [hpre, List.cons_append], ?_, ?_⟩ <;>
          rwa [count44_cons_ne b pre hb]
      | token =>
        obtain ⟨pre, hpre, hlb, hub⟩ := ih _ _ _ _ _ h
        refine ⟨b :: pre, by rw [hpre, List.cons_append], ?_, ?_⟩ <;>
          rwa [count44_cons_ne b pre hb]
      | tokenDelim =>
        obtain ⟨pre, hpre, hlb, hub⟩ := ih _ _ _ _ _ h
        refine ⟨b :: pre, by rw [hpre, List.cons_append], ?_, ?_⟩ <;>
          rwa [count44_cons_ne b pre hb]
    rw [if_neg hdq] at h
    obtain ⟨pre, hpre, hlb, hub⟩ := ih _ _ _ _ _ h
    refine ⟨b :: pre, by rw [hpre, List.cons_append], ?_, ?_⟩ <;>
      rwa [count44_cons_ne b pre hb]

/-- C1: contrary to the stated policy, a parse failure does not surface
to the orchestrator's caller as a typed error.  On the request line
`FOO /x HTTP/1.1` the line reader does produce the typed
`MethodParseError`, but `read_request` immediately `.unwrap()`s it, so
the caller observes an unrecoverable task abort instead of the error. -/
theorem C1_read_request_aborts_on_method_error :
    read_req_line sFOO = .ok (.error Error.MethodParseError, []) ∧
    read_request sFOO = .fatal := by
  constructor
  · decide
  · decide

/-- C2 counterexample: the space-delimited reader, fed a 4097-byte token,
does not fail when the 4096-byte maximum is exceeded — it silently
returns the first 4096 bytes as if successful (the space delimiter is
still unconsumed in the stream). -/
theorem C2_counterexample :
    spRead (List.replicate 4097 97 ++ [SP]) = .ok (List.replicate 4096 97, [SP]) := by
  show spLoop (List.replicate 4097 97 ++ [SP]) [] = .ok (List.replicate 4096 97, [SP])
  have h := spLoop_trunc [SP] 4096 [] (by decide)
  rw [show (4096 + 1 : Nat) = 4097 from rfl, List.nil_append] at h
  exact h

/-- C2 amended: all four token readers cap the token at 4096 bytes, but
only the header-value reader fails on an over-long token; the space,
line, and header-key readers stop consuming and return the truncated
4096-byte prefix as if successful. -/
theorem C2_amended_truncation :
    spRead (List.replicate 4097 97 ++ [SP]) = .ok (List.replicate 4096 97, [SP]) ∧
    eolRead (List.replicate 4097 97 ++ crlf) = .ok (List.replicate 4096 97, crlf) ∧
    hkRead (List.replicate 4097 97 ++ [COLON]) = .ok (List.replicate 4096 97, [COLON]) ∧
    hvRead (List.replicate 4097 97 ++ crlf) = .fatal := by
  refine ⟨?_, ?_, ?_, ?_⟩
  · show spLoop (List.replicate 4097 97 ++ [SP]) [] = .ok (List.replicate 4096 97, [SP])
    have h := spLoop_trunc [SP] 4096 [] (by decide)
    rw [show (4096 + 1 : Nat) = 4097 from rfl, List.nil_append] at h
    exact h
  · show eolLoop (List.replicate 4097 97 ++ crlf) [] EOLSt.token
      = .ok (List.replicate 4096 97, crlf)
    have h := eolLoop_trunc crlf 4096 [] EOLSt.token (by decide)
    rw [show (4096 + 1 : Nat) = 4097 from rfl, List.nil_append] at h
    exact h
  · show hkLoop (List.replicate 4097 97 ++ [COLON]) [] = .ok (List.replicate 4096 97, [COLON])
    have h := hkLoop_trunc [COLON] 4096 [] (by decide)
    rw [show (4096 + 1 : Nat) = 4097 from rfl, List.nil_append] at h
    exact h
  · show hvLoop (List.replicate 4097 97 ++ crlf) [] HeaderVal.None HVSt.ows = .fatal
    rw [show List.replicate 4097 97 ++ crlf = 97 :: (List.replicate 4096 97 ++ crlf)
        from rfl]
    rw [hvLoop_cons]
    rw [if_neg (by decide), if_neg (by decide), if_neg (by decide), if_neg (by decide),
      if_neg (by decide), if_neg (by decide)]
    exact hvLoop_overflow crlf 4095 ([] ++ [97]) HeaderVal.None (by decide)

/-- C3: the quoted header value whose characters are `"a, b"` does not
parse to Single("a, b"); the reader aborts.  Any ordinary byte resets
the state to `Token` (leaving quoted mode), so the comma inside the
quotes is treated as a delimiter, and the closing quote re-enters
quoted mode, making the following CR a parse abort. -/
theorem C3_quoted_value_aborts :
    hvRead ([DQUOTE] ++ ascii ['a',',',' ','b'] ++ [DQUOTE] ++ crlf) = .fatal := by
  decide

/-- C4 counterexample: the status-code token does not parse successfully
"exactly when it is a non-negative integer with exactly 3 decimal
digits".  The token `-20` is no such token yet parses to -20 (its
rendered string has 3 characters), and the token `020` is such a token
yet is rejected (20 renders with 2 characters). -/
theorem C4_counterexample :
    (statusCodeOfTok (ascii ['-','2','0']) = some (-20) ∧
      isNonNegThreeDigit (ascii ['-','2','0']) = false) ∧
    (statusCodeOfTok (ascii ['0','2','0']) = none ∧
      isNonNegThreeDigit (ascii ['0','2','0']) = true) := by
  refine ⟨⟨?_, ?_⟩, ?_, ?_⟩ <;> decide

/-- C4 amended: the status-code token parses successfully exactly when it
parses as a signed decimal integer whose canonical rendering has exactly
3 characters, i.e. exactly for the values 100..999 and -99..-10 (so a
3-digit token with a leading zero fails, and a signed token like -20
succeeds).  In particular `200` parses to 200, while `20` and `2000`
fail the status-line read with StatusCodeParseError. -/
theorem C4_amended_status_code :
    (∀ (tok : List Nat) (n : Int), statusCodeOfTok tok = some n ↔
      (parseIsize tok = some n ∧ ((100 ≤ n ∧ n ≤ 999) ∨ (-99 ≤ n ∧ n ≤ -10)))) ∧
    statusCodeOfTok (ascii ['2','0','0']) = some 200 ∧
    statusCodeOfTok (ascii ['2','0']) = none ∧
    statusCodeOfTok (ascii ['2','0','0','0']) = none ∧
    read_status_line (ascii ['H','T','T','P','/','1','.','1',' ','2','0',' ','O','K'] ++ crlf)
      = .ok (.error Error.StatusCodeParseError, []) ∧
    read_status_line (ascii ['H','T','T','P','/','1','.','1',' ','2','0','0','0',' ','O','K'] ++ crlf)
      = .ok (.error Error.StatusCodeParseError, []) := by
  refine ⟨?_, by decide, by decide, by decide, by decide, by decide⟩
  intro tok n
  cases hp : parseIsize tok with
  | none => simp [statusCodeOfTok, hp]
  | some num =>
    simp only [statusCodeOfTok, hp]
    by_cases hl : (intToStr num).length = 3
    · rw [if_pos hl]
      constructor
      · intro hsome
        injection hsome with hn
        subst hn
        exact ⟨rfl, (intToStr_len_eq_three num).mp hl⟩
      · intro ⟨hps, _⟩
        injection hps with hn
        rw [hn]
    · rw [if_neg hl]
      constructor
      · intro hsome
        exact absurd hsome (by simp)
      · intro ⟨hps, hrange⟩
        injection hps with hn
        subst hn
        exact absurd ((intToStr_len_eq_three num).mpr hrange) hl

/-- C4 witness: the amended equivalence applied at the token `200`. -/
theorem C4_witness : statusCodeOfTok (ascii ['2','0','0']) = some 200 :=
  (C4_amended_status_code.1 (ascii ['2','0','0']) 200).mpr ⟨by decide, by decide⟩

/-- C5: for every successfully parsed message, the body is absent when
the request method is HEAD, and when the response status code is 204,
304, or in the range 100..199 — whatever the headers say. -/
theorem C5_body_absent :
    (∀ (s : List Nat) (r : Request) (rest : List Nat),
      read_request s = .ok (r, rest) → r.method = RequestType.HEAD → r.body = none) ∧
    (∀ (s : List Nat) (p : Response) (rest : List Nat),
      read_response s = .ok (p, rest) →
      (p.status_code = 204 ∨ p.status_code = 304 ∨
        (100 ≤ p.status_code ∧ p.status_code < 200)) →
      p.body = none) := by
  constructor
  · intro s r rest h hm
    unfold read_request at h
    split at h
    · exact absurd h (by simp)
    · exact absurd h (by simp)
    · split at h
      · exact absurd h (by simp)
      · split at h
        · simp only [Res.ok.injEq, Prod.mk.injEq] at h
          obtain ⟨h1, h2⟩ := h
          rw [← h1]
        · rename_i hne
          split at h
          · exact absurd h (by simp)
          · simp only [Res.ok.injEq, Prod.mk.injEq] at h
            obtain ⟨h1, h2⟩ := h
            rw [← h1] at hm
            exact absurd hm hne
  · intro s p rest h hs
    unfold read_response at h
    split at h
    · exact absurd h (by simp)
    · exact absurd h (by simp)
    · split at h
      · exact absurd h (by simp)
      · split at h
        · simp only [Res.ok.injEq, Prod.mk.injEq] at h
          obtain ⟨h1, h2⟩ := h
          rw [← h1]
        · split at h
          · simp only [Res.ok.injEq, Prod.mk.injEq] at h
            obtain ⟨h1, h2⟩ := h
            rw [← h1]
          · split at h
            · simp only [Res.ok.injEq, Prod.mk.injEq] at h
              obtain ⟨h1, h2⟩ := h
              rw [← h1]
            · rename_i hne1 hne2 hne3
              split at h
              · exact absurd h (by simp)
              · simp only [Res.ok.injEq, Prod.mk.injEq] at h
                obtain ⟨h1, h2⟩ := h
                rw [← h1] at hs
                simp only at hs
                omega

/-- C5 witness: a HEAD request and a 204 response, each carrying a
`Content-Length: 10` header, both parse with an absent body. -/
theorem C5_witness :
    (∃ r, read_request sHEAD = .ok (r, []) ∧ r.body = none) ∧
    (∃ p, read_response s204 = .ok (p, []) ∧ p.body = none) := by
  have h1 : read_request sHEAD = .ok (reqHEAD, []) := by decide
  have h2 : read_response s204 = .ok (resp204, []) := by decide
  exact ⟨⟨reqHEAD, h1, C5_body_absent.1 sHEAD reqHEAD [] h1 (by decide)⟩,
         ⟨resp204, h2, C5_body_absent.2 s204 resp204 [] h2 (by decide)⟩⟩

/-- A body read of `n ≥ 1` available bytes returns exactly those `n`
bytes. -/
lemma read_body_exact (s : List Nat) (n : Nat) (h1 : 1 ≤ n) (h2 : n ≤ s.length) :
    read_body s n = .ok (bufToStr (s.take n), s.drop n) := by
  unfold read_body
  rw [bodyLoop_take n s [] (by simpa using h1) (by simpa using h2)]
  simp

/-- A body read of 0 bytes still consumes and returns one byte. -/
lemma read_body_zero (s : List Nat) (h : 1 ≤ s.length) :
    read_body s 0 = .ok (bufToStr (s.take 1), s.drop 1) := by
  match s, h with
  | b :: t, _ =>
    unfold read_body
    rw [bodyLoop_first b t [] 0 (by simp)]
    simp

/-- C6 counterexample: with `Content-Length: 0` the body is not the
promised empty 0-byte read — the body loop pushes a byte before testing
the length, so one byte (here `Z`) is consumed and returned as body. -/
theorem C6_counterexample :
    read_request sCL0 = .ok (reqCL0, []) ∧ reqCL0.body = some (ascii ['Z']) := by
  constructor
  · decide
  · decide

/-- C6 amended: for a message that reaches body resolution, a present
`Content-Length: N` (a Single value parsing as usize) reads exactly N
bytes when N ≥ 1 but still reads exactly 1 byte when N = 0; a present
but unparseable or non-Single `Content-Length` yields an absent body
without consulting `Transfer-Encoding`; with no `Content-Length`, a
present `Transfer-Encoding` (any value) reads a fixed 4096-byte window;
otherwise the body is absent. -/
theorem C6_amended_body_resolution :
    (∀ (h : Headers) (s v : List Nat) (n : Nat),
      hget h bContentLength = some (HeaderVal.Val v) → parseUsize v = some n →
      ((1 ≤ n → n ≤ s.length →
          body_from_headers h s = .ok (some (bufToStr (s.take n)), s.drop n)) ∧
       (n = 0 → 1 ≤ s.length →
          body_from_headers h s = .ok (some (bufToStr (s.take 1)), s.drop 1)))) ∧
    (∀ (h : Headers) (s v : List Nat),
      hget h bContentLength = some (HeaderVal.Val v) → parseUsize v = none →
      body_from_headers h s = .ok (none, s)) ∧
    (∀ (h : Headers) (s : List Nat) (l : StrList),
      hget h bContentLength = some (HeaderVal.List l) →
      body_from_headers h s = .ok (none, s)) ∧
    (∀ (h : Headers) (s : List Nat) (w : HeaderVal),
      hget h bContentLength = none → hget h bTransferEncoding = some w →
      4096 ≤ s.length →
      body_from_headers h s = .ok (some (bufToStr (s.take 4096)), s.drop 4096)) ∧
    (∀ (h : Headers) (s : List Nat),
      hget h bContentLength = none → hget h bTransferEncoding = none →
      body_from_headers h s = .ok (none, s)) ∧
    read_request sPOST5 = .ok (reqPOST5, []) := by
  refine ⟨?_, ?_, ?_, ?_, ?_, by decide⟩
  · intro h s v n hcl hn
    constructor
    · intro hge hle
      unfold body_from_headers
      rw [hcl]
      simp only [hn]
      rw [read_body_exact s n hge hle]
    · intro h0 hs
      subst h0
      unfold body_from_headers
      rw [hcl]
      simp only [hn]
      rw [read_body_zero s hs]
  · intro h s v hcl hn
    unfold body_from_headers
    rw [hcl]
    simp only [hn]
  · intro h s l hcl
    unfold body_from_headers
    rw [hcl]
  · intro h s w hcl hte hs
    unfold body_from_headers
    rw [hcl, hte]
    rw [read_body_exact s 4096 (by omega) hs]
  · intro h s hcl hte
    unfold body_from_headers
    rw [hcl, hte]

/-- C6 witness: the amended resolution applied with `Content-Length: 5`
on a 7-byte remaining stream, and with no length headers at all. -/
theorem C6_witness :
    body_from_headers [(bContentLength, HeaderVal.Val (ascii ['5']))]
        (ascii ['H','e','l','l','o','X','Y'])
      = .ok (some (bufToStr ((ascii ['H','e','l','l','o','X','Y']).take 5)),
          (ascii ['H','e','l','l','o','X','Y']).drop 5) ∧
    body_from_headers [] (ascii ['r','e','s','t'])
      = .ok (none, ascii ['r','e','s','t']) := by
  constructor
  · exact (C6_amended_body_resolution.1 [(bContentLength, HeaderVal.Val (ascii ['5']))]
      (ascii ['H','e','l','l','o','X','Y']) (ascii ['5']) 5 (by decide) (by decide)).1
      (by decide) (by decide)
  · exact C6_amended_body_resolution.2.2.2.2.1 [] (ascii ['r','e','s','t'])
      (by decide) (by decide)

/-- C7 counterexample: a header line whose value is just the two
characters `""` (an empty quoted string) is scanned with zero comma
delimiters seen, yet the result is Absent, not Single: the closing
quote leaves the buffer empty, so the final flush is skipped. -/
theorem C7_counterexample :
    hvRead ([DQUOTE, DQUOTE] ++ crlf) = .ok (HeaderVal.None, []) ∧
    (([DQUOTE, DQUOTE] ++ crlf).count 44 = 0) := by
  constructor
  · decide
  · decide

/-- C7 amended: tokens accumulate in order (Absent to Single to Multi to
append), each comma flushing the pending token (even an empty one) and
the final pending token flushing only when nonempty; hence on the
consumed prefix, zero commas yield Absent or Single(token), one comma
yields Single or Multi, and two or more commas always yield Multi.  In
particular `a, b, c` parses to Multi(["a","b","c"]) and `a` parses to
Single("a"). -/
theorem C7_amended_value_shape :
    hvRead (ascii ['a',',',' ','b',',',' ','c'] ++ crlf)
      = .ok (HeaderVal.List [ascii ['a'], ascii ['b'], ascii ['c']], []) ∧
    hvRead (ascii ['a'] ++ crlf) = .ok (HeaderVal.Val (ascii ['a']), []) ∧
    (∀ (s : List Nat) (hv : HeaderVal) (rest : List Nat),
      hvRead s = .ok (hv, rest) →
      ∃ pre, s = pre ++ rest ∧
        min 2 (pre.count 44) ≤ rank hv ∧ rank hv ≤ min 2 (pre.count 44 + 1)) := by
  refine ⟨by decide, by decide, ?_⟩
  intro s hv rest h
  have hm := hvLoop_rank s [] HeaderVal.None HVSt.ows hv rest h
  simpa [rank] using hm

/-- C7 witness: the rank bound applied to the single-token line `a`. -/
theorem C7_witness :
    ∃ pre, (ascii ['a'] ++ crlf) = pre ++ ([] : List Nat) ∧
      min 2 (pre.count 44) ≤ rank (HeaderVal.Val (ascii ['a'])) ∧
      rank (HeaderVal.Val (ascii ['a'])) ≤ min 2 (pre.count 44 + 1) :=
  C7_amended_value_shape.2.2 (ascii ['a'] ++ crlf) (HeaderVal.Val (ascii ['a'])) []
    (by decide)

/-- C8: the request method is recognized exactly for the closed set of 9
tokens, by exact byte equality, each mapping to its constructor; the
token `FOO` fails the request-line read with MethodParseError. -/
theorem C8_method_vocabulary :
    (∀ tok : List Nat, (methodOf tok).isSome = true ↔
      tok ∈ [bGET, bHEAD, bPOST, bPUT, bDELETE, bTRACE, bOPTIONS, bCONNECT, bPATCH]) ∧
    methodOf bGET = some RequestType.GET ∧
    methodOf bHEAD = some RequestType.HEAD ∧
    methodOf bPOST = some RequestType.POST ∧
    methodOf bPUT = some RequestType.PUT ∧
    methodOf bDELETE = some RequestType.DELETE ∧
    methodOf bTRACE = some RequestType.TRACE ∧
    methodOf bOPTIONS = some RequestType.OPTIONS ∧
    methodOf bCONNECT = some RequestType.CONNECT ∧
    methodOf bPATCH = some RequestType.PATCH ∧
    methodOf (ascii ['F','O','O']) = none ∧
    read_req_line sFOO = .ok (.error Error.MethodParseError, []) := by
  refine ⟨?_, by decide, by decide, by decide, by decide, by decide, by decide,
    by decide, by decide, by decide, by decide, by decide⟩
  intro tok
  unfold methodOf
  split_ifs <;> simp_all

/-- C8 witness: the characterisation applied at the token `GET`. -/
theorem C8_witness : (methodOf bGET).isSome = true :=
  (C8_method_vocabulary.1 bGET).mpr (by decide)

/-- C9: a repeated header name overwrites the prior value for that name
(an insert makes the new value the one retrieved for its key and leaves
every other key untouched); concretely, the block `A: x, B: y, A: z`
yields a map with `A` bound to `z` and `B` still bound to `y`. -/
theorem C9_header_overwrite :
    (∀ (m : Headers) (k : List Nat) (v : HeaderVal),
      hget (hinsert m k v) k = some v) ∧
    (∀ (m : Headers) (k k' : List Nat) (v : HeaderVal), k' ≠ k →
      hget (hinsert m k v) k' = hget m k') ∧
    (∃ m, read_headers sDup = .ok (m, []) ∧
      hget m (ascii ['A']) = some (HeaderVal.Val (ascii ['z'])) ∧
      hget m (ascii ['B']) = some (HeaderVal.Val (ascii ['y']))) := by
  refine ⟨?_, ?_, ?_⟩
  · intro m k v
    induction m with
    | nil => simp [hinsert, hget]
    | cons a rest ih =>
      obtain ⟨ka, va⟩ := a
      by_cases hk : ka = k
      · simp [hinsert, hget, hk]
      · simp only [hinsert, hget, hk, if_neg, ite_false]
        exact ih
  · intro m k k' v hne
    induction m with
    | nil =>
      simp only [hinsert, hget]
      rw [if_neg (show ¬k = k' from fun hk => hne hk.symm)]
    | cons a rest ih =>
      obtain ⟨ka, va⟩ := a
      by_cases hk : ka = k
      · simp only [hinsert, if_pos hk, hget]
        rw [if_neg (show ¬k = k' from fun h2 => hne h2.symm),
          if_neg (show ¬ka = k' from fun h2 => hne (hk.symm.trans h2).symm)]
      · simp only [hinsert, hk, if_neg, ite_false, hget]
        by_cases hk' : ka = k'
        · rw [if_pos hk', if_pos hk']
        · rw [if_neg hk', if_neg hk']
          exact ih
  · exact ⟨[([65], HeaderVal.Val [122]), ([66], HeaderVal.Val [121])],
      by decide, by decide, by decide⟩

/-- C9 witness: inserting key `A` over a map holding key `B` leaves the
binding of `B` untouched. -/
theorem C9_witness :
    hget (hinsert [(ascii ['B'], HeaderVal.Val (ascii ['y']))]
        (ascii ['A']) (HeaderVal.Val (ascii ['z']))) (ascii ['B'])
      = some (HeaderVal.Val (ascii ['y'])) := by
  rw [C9_header_overwrite.2.1 [(ascii ['B'], HeaderVal.Val (ascii ['y']))]
    (ascii ['A']) (ascii ['B']) (HeaderVal.Val (ascii ['z'])) (by decide)]
  decide

/-- C10: the version reader recognizes exactly the four literals
`HTTP/0.9`, `HTTP/1.0`, `HTTP/1.1` and the mixed-case `Http/2.0`; the
uppercase spelling `HTTP/2.0` is not recognized and makes the
request-line read fail with VersionParseError. -/
theorem C10_version_vocabulary :
    versionOf bHTTP09 = some Version.Http09 ∧
    versionOf bHTTP10 = some Version.Http10 ∧
    versionOf bHTTP11 = some Version.Http11 ∧
    versionOf bHttp20 = some Version.Http20 ∧
    versionOf (ascii ['H','T','T','P','/','2','.','0']) = none ∧
    (∀ tok : List Nat, (versionOf tok).isSome = true ↔
      tok ∈ [bHTTP09, bHTTP10, bHTTP11, bHttp20]) ∧
    read_req_line (ascii ['G','E','T',' ','/','x',' ','H','T','T','P','/','2','.','0'] ++ crlf)
      = .ok (.error Error.VersionParseError, []) := by
  refine ⟨by decide, by decide, by decide, by decide, by decide, ?_, by decide⟩
  intro tok
  unfold versionOf
  split_ifs <;> simp_all

/-- C10 witness: the characterisation applied at the mixed-case 2.0
literal. -/
theorem C10_witness : (versionOf bHttp20).isSome = true :=
  (C10_version_vocabulary.2.2.2.2.2.1 bHttp20).mpr (by decide)

end Epic
